import Mathlib

/-!
# PiScan: barcode lookup cache and item handlers

A shallow embedding of `server/commerce/amazon/amazon.go` and
`client/ui/ui.go`.

Conventions of the embedding.

* A Go `error` value is an `Option GoError`: `none` is `nil`, and
  `GoError.text` is what `Error()` returns.
* The packages `server/database/barcodes` and `client/database`, whose
  code is not at hand, and the library calls that reach outside the
  program or are not worth spelling out (running a command,
  `json.Unmarshal`) are parameters of the embedding, gathered in the
  structures `amazon.Env` and `ui.Database`. `strings.Split`,
  `strings.Join`, `strconv.ParseInt` and `json.Marshal` are written out.
* The code is Go of 2014, from before modules and before Go 1.22: the
  variables of a `for ... range` statement are declared once for the whole
  loop, and `&v` taken in the body is the same address in every iteration.
* A run-time panic (an index out of range) is an explicit outcome.
-/

namespace golang

/-- Value of a non-nil Go `error`; `text` is the result of `Error()`. -/
structure GoError where
  text : String
deriving DecidableEq, Repr

/-- Split a list of characters at every occurrence of `sep`. -/
def splitChars (sep : Char) : List Char → List (List Char)
  | [] => [[]]
  | c :: cs =>
    match splitChars sep cs with
    | [] => if c = sep then [[], []] else [[c]]
    | h :: t => if c = sep then [] :: h :: t else (c :: h) :: t

/-- Go `strings.Split(s, sep)` for a separator of one ASCII character. -/
def stringsSplit (s : String) (sep : Char) : List String :=
  (splitChars sep s.data).map String.mk

/-- Go `strings.Join(elems, sep)`. -/
def stringsJoin : List String → String → String
  | [], _ => ""
  | [a], _ => a
  | a :: b :: rest, sep => a ++ sep ++ stringsJoin (b :: rest) sep

/-- Lower-case hexadecimal digit of a number below sixteen. -/
def hexDigit (n : Nat) : Char :=
  "0123456789abcdef".data.getD n '0'

/-- Escaping of one character inside a JSON string, as `encoding/json`
writes it with HTML escaping on (the default of `json.Marshal`). -/
def jsonEscapeChar (c : Char) : List Char :=
  if c = '"' then ['\\', '"']
  else if c = '\\' then ['\\', '\\']
  else if c = '\n' then ['\\', 'n']
  else if c = '\r' then ['\\', 'r']
  else if c = '\t' then ['\\', 't']
  else if c.toNat < 32 ∨ c = '<' ∨ c = '>' ∨ c = '&' then
    ['\\', 'u', '0', '0', hexDigit (c.toNat / 16), hexDigit (c.toNat % 16)]
  else if c.toNat = 0x2028 then ['\\', 'u', '2', '0', '2', '8']
  else if c.toNat = 0x2029 then ['\\', 'u', '2', '0', '2', '9']
  else [c]

/-- JSON encoding of a Go string value (a string of valid UTF-8). -/
def jsonString (s : String) : String :=
  String.mk ('"' :: (s.data.flatMap jsonEscapeChar ++ ['"']))

end golang

namespace amazon

open golang

/-- The struct `API`: the generalized output of a vendor lookup. -/
structure API where
  SKU : String
  ProductName : String
  ProductType : String
  Vendor : String
deriving DecidableEq, Repr

/-- Modelled from the spec: the cached product record (barcode, vendor SKU,
product name, product type, locale). The declaration of `barcodes.AMAZON`
is not at hand; the fields are those `Lookup` reads and writes. -/
structure AMAZON where
  Barcode : String
  Asin : String
  ProductName : String
  ProductType : String
  Locale : String
deriving DecidableEq, Repr

/-- What `Lookup` is given from outside `amazon.go`: the two prepared
statements of the barcodes database acting on a store of type `σ`, the
operating system running a command and capturing its standard output, the
path of the lookup script (the directory of the calling source file joined
with `/amazon_api_lookup.py`), and `json.Unmarshal` into a `[]API`. -/
structure Env (σ : Type) where
  LookupAsin : σ → String → List AMAZON × Option GoError
  InsertAsin : σ → AMAZON → σ × Option GoError
  scriptPath : String
  run : List String → String × Option GoError
  Unmarshal : String → Except GoError (List API)

/-- The barcodes store together with the record of the effects of a call:
the rows handed to `InsertAsin` and the commands run, both oldest first. -/
structure World (σ : Type) where
  db : σ
  inserts : List AMAZON
  commands : List (List String)

/-- JSON object written for one `API` value, following its field tags
(`sku`, `desc,omitempty`, `type,omitempty`, `vnd`). -/
def jsonAPI (a : API) : String :=
  "\x7b\"sku\":" ++ jsonString a.SKU
    ++ (if a.ProductName = "" then "" else ",\"desc\":" ++ jsonString a.ProductName)
    ++ (if a.ProductType = "" then "" else ",\"type\":" ++ jsonString a.ProductType)
    ++ ",\"vnd\":" ++ jsonString a.Vendor ++ "\x7d"

/-- The text `json.Marshal` produces for a non-nil slice (of pointers to)
`API` values; for these values it never fails. -/
def jsonMarshal (l : List API) : String :=
  "[" ++ stringsJoin (l.map jsonAPI) "," ++ "]"

/-- The function `apiLookup`: run the lookup script on the barcode and
return its standard output and the error of the run as they are. -/
def apiLookup {σ : Type} (E : Env σ) (barcode : String) (w : World σ) :
    (String × Option GoError) × World σ :=
  let lookupCmd := ["python", E.scriptPath, barcode]
  (E.run lookupCmd, { w with commands := w.commands ++ [lookupCmd] })

/-- Memory of one call of `Lookup`: `heap` holds the `API` values that
pointers refer to (a pointer is an index into it) and `results` is the
slice of pointers. -/
structure Frame (σ : Type) where
  heap : List API
  results : List Nat
  w : World σ

/-- The zero value of `API`. -/
def API.zero : API := ⟨"", "", "", ""⟩

/-- Values the pointers of `results` refer to, in order. -/
def Frame.deref {σ : Type} (f : Frame σ) : List API :=
  f.results.map (fun p => f.heap.getD p API.zero)

/-- How a call of `Lookup` ends: it returns the JSON text and the error,
or it panics; either way with the world as it left it. -/
inductive Outcome (σ : Type) where
  | returned (json : String) (err : Option GoError) (w : World σ)
  | panicked (w : World σ)

/-- Loop over the cached rows (lines 62-69): each iteration allocates a
fresh `API`, fills it from the row and appends its address. -/
def cachedLoop {σ : Type} : List AMAZON → Frame σ → Frame σ
  | [], f => f
  | product :: rest, f =>
    let result := f.heap.length
    let cell : API :=
      { SKU := product.Asin
        ProductName := product.ProductName
        ProductType := product.ProductType
        Vendor := stringsJoin ["AMZN", product.Locale] ":" }
    cachedLoop rest { f with heap := f.heap ++ [cell], results := f.results ++ [result] }

/-- Loop over the parsed entries (lines 78-96). The range variable
`apiResult` lives at address `v` for the whole loop: each iteration
stores the entry there, appends `v` to the results, builds the row and
inserts it. `vendor[1]` panics when the split has one element. -/
def apiLoop {σ : Type} (E : Env σ) (barcode : String) (v : Nat) :
    List API → Frame σ → Except (World σ) (Frame σ)
  | [], f => .ok f
  | entry :: rest, f =>
    let heap := f.heap.set v entry
    let results := f.results ++ [v]
    let apiResult := heap.getD v API.zero
    let vendor := stringsSplit apiResult.Vendor ':'
    if vendor.length > 0 then
      match vendor[1]? with
      | none => .error f.w
      | some locale =>
        let prod : AMAZON :=
          { Barcode := barcode
            Asin := apiResult.SKU
            ProductName := apiResult.ProductName
            ProductType := apiResult.ProductType
            Locale := locale }
        let w := { f.w with db := (E.InsertAsin f.w.db prod).1, inserts := f.w.inserts ++ [prod] }
        apiLoop E barcode v rest { heap := heap, results := results, w := w }
    else
      let prod : AMAZON :=
        { Barcode := barcode
          Asin := apiResult.SKU
          ProductName := apiResult.ProductName
          ProductType := apiResult.ProductType
          Locale := "us" }
      let w := { f.w with db := (E.InsertAsin f.w.db prod).1, inserts := f.w.inserts ++ [prod] }
      apiLoop E barcode v rest { heap := heap, results := results, w := w }

/-- The function `Lookup`: answer from the barcodes database when it has
rows for the barcode, otherwise from the lookup script, saving what the
script returned. The error returned is that of `json.Marshal`. -/
def Lookup {σ : Type} (E : Env σ) (barcode : String) (w : World σ) : Outcome σ :=
  let start : Frame σ := { heap := [], results := [], w := w }
  let found := E.LookupAsin w.db barcode
  if found.2 = none ∧ found.1.length > 0 then
    let f := cachedLoop found.1 start
    .returned (jsonMarshal f.deref) none f.w
  else
    let called := apiLookup E barcode w
    let api := called.1.1
    let aerr := called.1.2
    let w1 := called.2
    if aerr = none then
      match E.Unmarshal api with
      | .ok apiList =>
        let v := 0
        match apiLoop E barcode v apiList { heap := [API.zero], results := [], w := w1 } with
        | .ok f => .returned (jsonMarshal f.deref) none f.w
        | .error wp => .panicked wp
      | .error _ => .returned (jsonMarshal start.deref) none w1
    else
      .returned (jsonMarshal start.deref) none w1

/-- The `API` value `Lookup` builds from a cached row. -/
def cachedAPI (p : AMAZON) : API :=
  { SKU := p.Asin
    ProductName := p.ProductName
    ProductType := p.ProductType
    Vendor := "AMZN:" ++ p.Locale }

/-- An environment of the examples. The store is a list of rows: the
lookup statement selects the rows of the barcode and the insert statement
appends the row. The script prints the JSON text of `answer`, which parses
back to `answer`. -/
def scriptEnv (answer : List API) : Env (List AMAZON) :=
  { LookupAsin := fun db b => (db.filter (fun r => r.Barcode = b), none)
    InsertAsin := fun db r => (db ++ [r], none)
    scriptPath := "/srv/piscan/amazon_api_lookup.py"
    run := fun _ => (jsonMarshal answer, none)
    Unmarshal := fun text =>
      if text = jsonMarshal answer then .ok answer
      else .error ⟨"invalid character"⟩ }

/-- An environment of the examples in which the run of the script fails
with "exit status 1" and prints nothing. -/
def failingEnv : Env (List AMAZON) :=
  { scriptEnv [] with
    run := fun _ => ("", some ⟨"exit status 1"⟩)
    Unmarshal := fun _ => .error ⟨"unexpected end of JSON input"⟩ }

/-- A world with the given rows and no recorded effect. -/
def freshWorld (rows : List AMAZON) : World (List AMAZON) :=
  { db := rows, inserts := [], commands := [] }

/-- Two cached rows of one barcode. -/
def teaRows : List AMAZON :=
  [⟨"0012345678905", "B00A", "Tea", "Grocery", "us"⟩,
    ⟨"0012345678905", "B00B", "Tea (UK)", "", "uk"⟩]

/-- The command `apiLookup` runs for a barcode. -/
def lookupCmd {σ : Type} (E : Env σ) (barcode : String) : List String :=
  ["python", E.scriptPath, barcode]

/-- Two entries of a script answer, both with a locale. -/
def teaEntries : List API :=
  [⟨"B00A", "Tea", "Grocery", "AMZN:us"⟩, ⟨"B00B", "Tea (UK)", "", "AMZN:uk"⟩]

/-- Two entries of a script answer, the second without a locale. -/
def mixedEntries : List API :=
  [⟨"B00A", "Tea", "Grocery", "AMZN:us"⟩, ⟨"B00C", "Widget", "Toy", "AMZN"⟩]

/-- The element `vendor[1]` of the split of the vendor tag of an entry,
when there is one. -/
def localeOf (e : API) : Option String :=
  (stringsSplit e.Vendor ':')[1]?

/-- The row `Lookup` builds from an entry and its locale. -/
def rowOf (barcode : String) (e : API) (locale : String) : AMAZON :=
  { Barcode := barcode
    Asin := e.SKU
    ProductName := e.ProductName
    ProductType := e.ProductType
    Locale := locale }

/-- The rows `Lookup` builds from the entries that have a locale. -/
def rowsOf (barcode : String) (entries : List API) : List AMAZON :=
  entries.filterMap (fun e => (localeOf e).map (rowOf barcode e))

/-- The store after the rows have been inserted one after the other. -/
def insertAll {σ : Type} (E : Env σ) (db : σ) (rows : List AMAZON) : σ :=
  rows.foldl (fun d row => (E.InsertAsin d row).1) db

end amazon

namespace golang

/-- The two failures of `strconv.ParseInt`. -/
inductive NumErr where
  | invalid
  | range
deriving DecidableEq, Repr

/-- Error value of `strconv.ParseInt` for the input `s`: the text is
"strconv.ParseInt: parsing " followed by the quoted input and the failure.
The quoting is taken without the escapes `strconv.Quote` adds for
characters that are not printable. -/
def numError (s : String) (k : NumErr) : GoError :=
  { text := "strconv.ParseInt: parsing \"" ++ s ++ "\": "
      ++ (match k with
          | .invalid => "invalid syntax"
          | .range => "value out of range") }

/-- Digit loop of `strconv.ParseUint` in base 10 on 64 bits: `n` is the
value read so far. A character that is not a digit is a syntax failure, a
value that leaves 64 bits a range failure, whichever comes first. -/
def parseUintLoop : List Char → Nat → Except NumErr Nat
  | [], n => .ok n
  | c :: cs, n =>
    if '0' ≤ c ∧ c ≤ '9' then
      if n ≥ (2 ^ 64 - 1) / 10 + 1 then .error .range
      else if n * 10 + (c.toNat - '0'.toNat) > 2 ^ 64 - 1 then .error .range
      else parseUintLoop cs (n * 10 + (c.toNat - '0'.toNat))
    else .error .invalid

/-- Go `strconv.ParseInt(s, 10, 64)`: an optional sign and at least one
decimal digit, the value within the signed 64-bit range. -/
def ParseInt (s : String) : Except GoError Int :=
  match s.data with
  | [] => .error (numError s .invalid)
  | c :: cs =>
    let neg := decide (c = '-')
    let digits := if c = '+' ∨ c = '-' then cs else c :: cs
    if digits = [] then .error (numError s .invalid)
    else
      match parseUintLoop digits 0 with
      | .error .invalid => .error (numError s .invalid)
      | .error .range => .error (numError s .range)
      | .ok un =>
        if neg = false ∧ un ≥ 2 ^ 63 then .error (numError s .range)
        else if neg = true ∧ un > 2 ^ 63 then .error (numError s .range)
        else .ok (if neg then - (un : Int) else (un : Int))

end golang

namespace ui

open golang

/-- The constant `BAD_REQUEST`. -/
def BAD_REQUEST : String := "Sorry, we do not know how to respond to that request"

/-- The constant `HOME_URL`. -/
def HOME_URL : String := "/scanned/"

/-- The constant `http.StatusFound`. -/
def StatusFound : Nat := 302

/-- The constant `http.StatusInternalServerError`. -/
def StatusInternalServerError : Nat := 500

/-- Modelled from the spec: the item record (identifier, barcode,
description, user-contributed flag, favorite flag, owning account
reference). The declaration of `database.Item` is not at hand;
`Id`, `Barcode`, `Desc` and `UserContributed` are the fields `ui.go` uses. -/
structure Item where
  Id : Int
  Barcode : String
  Desc : String
  UserContributed : Bool
  IsFavorite : Bool
  Owner : Int
deriving DecidableEq, Repr

/-- Modelled from the spec: the account record. The declaration of
`database.Account` is not at hand; `Email` is the field `ui.go` uses. -/
structure Account where
  Id : Int
  Email : String
deriving DecidableEq, Repr

/-- Coordinates of the client database, only handed on to `InitializeDB`;
the declaration of `database.ConnCoordinates` is not at hand. -/
structure ConnCoordinates where
  DBPath : String
deriving DecidableEq, Repr

/-- The struct `AjaxAck`: the JSON reply of the asynchronous calls. -/
structure AjaxAck where
  Message : String
  Error : String
deriving DecidableEq, Repr

/-- The struct `ItemForm`; `Item` is a pointer, nil until it is set. -/
structure ItemForm where
  Title : String
  Item : Option Item
  CancelUrl : String
deriving DecidableEq, Repr

/-- The part of an `http.Request` the handlers read: the method, the path
of the URL, and the form of the body as `r.ParseForm()` leaves it in
`r.PostForm` (keys with their values, a key looked up by `List.lookup`). -/
structure Request where
  Method : String
  Path : String
  PostForm : List (String × List String)
deriving DecidableEq, Repr

/-- What a handler writes: a redirect (`http.Redirect`), an error
(`http.Error`), or the item form handed to `renderItemEditTemplate`. -/
inductive Response where
  | redirect (target : String) (code : Nat)
  | error (text : String) (code : Nat)
  | itemEdit (form : ItemForm)
deriving DecidableEq, Repr

/-- A call of a method of `database.Item` that writes to the database. -/
inductive DBCall where
  | delete (item : Item)
  | favorite (item : Item)
  | unfavorite (item : Item)
  | update (item : Item)
deriving DecidableEq, Repr

/-- The package `client/database`, whose code is not at hand, acting on a
store of type `σ`. `InitializeDB` tells whether opening the database fails;
the store an open connection leads to is the argument `s` of the handlers.
A pointer to an account is an `Option Account` (`none` is nil). The queries
return their result or their error, and on a nil error the pointer they
return is not nil; the methods of `Item` return the item as they leave it
in memory and the store as they leave it. -/
structure Database (σ : Type) where
  InitializeDB : ConnCoordinates → Option GoError
  GetDesignatedAccount : σ → Option Account × Option GoError
  GetItems : σ → Option Account → Except GoError (List Item)
  GetSingleItem : σ → Option Account → Int → Except GoError Item
  Delete : Item → σ → Item × σ
  Favorite : Item → σ → Item × σ
  Unfavorite : Item → σ → Item × σ
  Update : Item → σ → Item × σ

/-- An open connection: the store and the writing calls made through the
connection so far, oldest first. -/
structure Conn (σ : Type) where
  state : σ
  calls : List DBCall

/-- The call `i.Delete(db)`. -/
def callDelete {σ : Type} (D : Database σ) (i : Item) (c : Conn σ) : Item × Conn σ :=
  ((D.Delete i c.state).1, { state := (D.Delete i c.state).2, calls := c.calls ++ [.delete i] })

/-- The call `i.Favorite(db)`. -/
def callFavorite {σ : Type} (D : Database σ) (i : Item) (c : Conn σ) : Item × Conn σ :=
  ((D.Favorite i c.state).1,
    { state := (D.Favorite i c.state).2, calls := c.calls ++ [.favorite i] })

/-- The call `i.Unfavorite(db)`. -/
def callUnfavorite {σ : Type} (D : Database σ) (i : Item) (c : Conn σ) : Item × Conn σ :=
  ((D.Unfavorite i c.state).1,
    { state := (D.Unfavorite i c.state).2, calls := c.calls ++ [.unfavorite i] })

/-- The call `i.Update(db)`. -/
def callUpdate {σ : Type} (D : Database σ) (i : Item) (c : Conn σ) : Item × Conn σ :=
  ((D.Update i c.state).1, { state := (D.Update i c.state).2, calls := c.calls ++ [.update i] })

/-- What a handler leaves behind: it answers or it panics. -/
inductive Reply where
  | response (r : Response)
  | panic
deriving DecidableEq, Repr

/-- End of a handler: its reply and the connection as it leaves it. -/
structure Handled (σ : Type) where
  reply : Reply
  conn : Conn σ

/-- The function `deleteItem`: look the item up for the account and the
id and delete it when the item found has that id; the boolean tells whether
it did, the error is that of the lookup. -/
def deleteItem {σ : Type} (D : Database σ) (db : Conn σ) (acc : Option Account) (id : Int) :
    (Bool × Option GoError) × Conn σ :=
  match D.GetSingleItem db.state acc id with
  | .ok item =>
    if item.Id = id then ((true, none), (callDelete D item db).2)
    else ((false, none), db)
  | .error itemErr => ((false, some itemErr), db)

/-- The map `accountItems` of `processItems`: the items by their id. The
value at an id is the item the pointer stored there refers to. -/
abbrev ItemMap : Type := Int → Option Item

/-- Lines 221-224: store every item under its id, later ones replacing
earlier ones of the same id. -/
def accountItemsOf (items : List Item) : ItemMap :=
  items.foldl (fun m item => Function.update m item.Id (some item)) (fun _ => none)

/-- Lines 231-238: the loop over the posted values. A value that parses
and is a key of the map has the function applied to the item stored there;
what the function does to the item in memory stays behind the pointer. -/
def processLoop {σ : Type} (fn : Item → Conn σ → Item × Conn σ) :
    List String → ItemMap → Conn σ → ItemMap × Conn σ
  | [], accountItems, db => (accountItems, db)
  | idString :: rest, accountItems, db =>
    match ParseInt idString with
    | .ok id =>
      match accountItems id with
      | some accountItem =>
        processLoop fn rest
          (Function.update accountItems id (some (fn accountItem db).1)) (fn accountItem db).2
      | none => processLoop fn rest accountItems db
    | .error _ => processLoop fn rest accountItems db

/-- The function `processItems`, on the store `s` the coordinates lead to:
fetch the items of the account, apply the function to those whose ids are
posted, and redirect to the target. -/
def processItems {σ : Type} (D : Database σ) (r : Request) (dbCoords : ConnCoordinates)
    (fn : Item → Conn σ → Item × Conn σ) (successTarget : String) (s : σ) : Handled σ :=
  let db : Conn σ := { state := s, calls := [] }
  match D.InitializeDB dbCoords with
  | some err => ⟨.response (.error err.text StatusInternalServerError), db⟩
  | none =>
    match D.GetDesignatedAccount db.state with
    | (_, some accErr) => ⟨.response (.error accErr.text StatusInternalServerError), db⟩
    | (acc, none) =>
      match D.GetItems db.state acc with
      | .error itemsErr => ⟨.response (.error itemsErr.text StatusInternalServerError), db⟩
      | .ok items =>
        let accountItems := accountItemsOf items
        let db1 :=
          if "POST" = r.Method then
            match r.PostForm.lookup "item" with
            | some idVals => (processLoop fn idVals accountItems db).2
            | none => db
          else db
        ⟨.response (.redirect successTarget StatusFound), db1⟩

/-- The function `DeleteItems`. -/
def DeleteItems {σ : Type} (D : Database σ) (r : Request) (dbCoords : ConnCoordinates)
    (s : σ) : Handled σ :=
  processItems D r dbCoords (fun i db => callDelete D i db) "/" s

/-- The function `FavoriteItems`. -/
def FavoriteItems {σ : Type} (D : Database σ) (r : Request) (dbCoords : ConnCoordinates)
    (s : σ) : Handled σ :=
  processItems D r dbCoords (fun i db => callFavorite D i db) "/favorites/" s

/-- The function `UnfavoriteItems`. -/
def UnfavoriteItems {σ : Type} (D : Database σ) (r : Request) (dbCoords : ConnCoordinates)
    (s : σ) : Handled σ :=
  processItems D r dbCoords (fun i db => callUnfavorite D i db) "/favorites/" s

/-- The function `InputUnknownItem`: a GET shows the form of the item
named in the path, a POST takes the contribution. Indexing an empty slice
(`idVal[0]`, `barcodeVal[0]`, `prodNameVal[0]`) and slicing an empty path
(`r.URL.Path[1:]`) panic. -/
def InputUnknownItem {σ : Type} (D : Database σ) (r : Request) (dbCoords : ConnCoordinates)
    (s : σ) : Handled σ :=
  let db : Conn σ := { state := s, calls := [] }
  match D.InitializeDB dbCoords with
  | some err => ⟨.response (.error err.text StatusInternalServerError), db⟩
  | none =>
    match D.GetDesignatedAccount db.state with
    | (_, some accErr) => ⟨.response (.error accErr.text StatusInternalServerError), db⟩
    | (acc, none) =>
      let form : ItemForm :=
        { Title := "Contribute Product Information", Item := none, CancelUrl := HOME_URL }
      if "GET" = r.Method then
        match r.Path.data with
        | [] => ⟨.panic, db⟩
        | _ :: path =>
          let urlPaths := stringsSplit (String.mk path) '/'
          if urlPaths.length ≥ 2 then
            match ParseInt (urlPaths.getD 1 "") with
            | .error itemIdErr =>
              ⟨.response (.error itemIdErr.text StatusInternalServerError), db⟩
            | .ok itemId =>
              match D.GetSingleItem db.state acc itemId with
              | .error itemErr =>
                ⟨.response (.error itemErr.text StatusInternalServerError), db⟩
              | .ok item => ⟨.response (.itemEdit { form with Item := some item }), db⟩
          else ⟨.response (.itemEdit form), db⟩
      else if "POST" = r.Method then
        match r.PostForm.lookup "item", r.PostForm.lookup "barcode",
            r.PostForm.lookup "prodName" with
        | some idVal, some barcodeVal, some prodNameVal =>
          match idVal with
          | [] => ⟨.panic, db⟩
          | idVal0 :: _ =>
            match ParseInt idVal0 with
            | .error itemIdErr =>
              ⟨.response (.error itemIdErr.text StatusInternalServerError), db⟩
            | .ok itemId =>
              match D.GetSingleItem db.state acc itemId with
              | .error itemErr =>
                ⟨.response (.error itemErr.text StatusInternalServerError), db⟩
              | .ok item =>
                match barcodeVal with
                | [] => ⟨.panic, db⟩
                | barcodeVal0 :: _ =>
                  if item.Barcode = barcodeVal0 then
                    match prodNameVal with
                    | [] => ⟨.panic, db⟩
                    | prodNameVal0 :: _ =>
                      ⟨.response (.redirect HOME_URL StatusFound),
                        (callUpdate D { item with Desc := prodNameVal0, UserContributed := true }
                          db).2⟩
                  else ⟨.response (.error BAD_REQUEST StatusInternalServerError), db⟩
        | _, _, _ => ⟨.response (.error BAD_REQUEST StatusInternalServerError), db⟩
      else ⟨.response (.itemEdit form), db⟩

/-- The text `json.Marshal` produces for an `AjaxAck`, following its field
tags (`msg`, `err,omitempty`). -/
def jsonAck (ack : AjaxAck) : String :=
  "\x7b\"msg\":" ++ jsonString ack.Message
    ++ (if ack.Error = "" then "" else ",\"err\":" ++ jsonString ack.Error) ++ "\x7d"

/-- The reply object `ack` of `RemoveSingleItem` as it stands at line 449,
before it is marshalled, and the connection. The account error is stored
in the reply and the handler goes on with the account pointer it got. -/
def RemoveSingleItem.ack {σ : Type} (D : Database σ) (r : Request)
    (dbCoords : ConnCoordinates) (s : σ) : AjaxAck × Conn σ :=
  let ack : AjaxAck := { Message := "", Error := "" }
  let db : Conn σ := { state := s, calls := [] }
  match D.InitializeDB dbCoords with
  | some err => ({ ack with Error := err.text }, db)
  | none =>
    let acc := (D.GetDesignatedAccount db.state).1
    let ack1 : AjaxAck :=
      match (D.GetDesignatedAccount db.state).2 with
      | some accErr => { ack with Error := accErr.text }
      | none => ack
    if "POST" = r.Method then
      match r.PostForm.lookup "itemId" with
      | some idVal =>
        match idVal with
        | idVal0 :: _ =>
          match ParseInt idVal0 with
          | .error idErr => ({ ack1 with Error := idErr.text }, db)
          | .ok id =>
            let deleted := deleteItem D db acc id
            if deleted.1.1 then ({ ack1 with Message := "Ok" }, deleted.2)
            else
              match deleted.1.2 with
              | some deleteErr => ({ ack1 with Error := deleteErr.text }, deleted.2)
              | none => ({ ack1 with Error := "No such item" }, deleted.2)
        | [] => ({ ack1 with Error := "Missing item id" }, db)
      | none => ({ ack1 with Error := "Bad POST data" }, db)
    else ({ ack1 with Error := "Bad Request" }, db)

/-- Text the account query has left in the reply of `RemoveSingleItem`:
that of its error, empty when it returned none. -/
def accountErrorText {σ : Type} (D : Database σ) (s : σ) : String :=
  match (D.GetDesignatedAccount s).2 with
  | some accErr => accErr.text
  | none => ""

/-- The function `RemoveSingleItem`: the reply object as a JSON text. -/
def RemoveSingleItem {σ : Type} (D : Database σ) (r : Request) (dbCoords : ConnCoordinates)
    (s : σ) : String × Conn σ :=
  (jsonAck (RemoveSingleItem.ack D r dbCoords s).1, (RemoveSingleItem.ack D r dbCoords s).2)

/-! ## The claims in the words of the spec -/

/-- The values posted under the key "item". -/
def postedItems (r : Request) : List String :=
  (r.PostForm.lookup "item").getD []

/-- The id of a posted value that parses as an integer and is the id of one
of the items; nothing for a value that does not parse or is no such id. -/
def ownedId (items : List Item) (v : String) : Option Int :=
  match ParseInt v with
  | .ok id => if id ∈ items.map Item.Id then some id else none
  | .error _ => none

/-- Ids a request has processed, in the words of the claim: the posted
"item" values of a POST that parse as integers and are ids of items of the
account, one per posted occurrence and in posted order. -/
def ownedPostedIds (items : List Item) (r : Request) : List Int :=
  if r.Method = "POST" then (postedItems r).filterMap (ownedId items) else []

/-- One application of the processing function, to the item stored under
the id. -/
def applyAt {σ : Type} (fn : Item → Conn σ → Item × Conn σ) (st : ItemMap × Conn σ)
    (id : Int) : ItemMap × Conn σ :=
  match st.1 id with
  | some item => (Function.update st.1 id (some (fn item st.2).1), (fn item st.2).2)
  | none => st

/-! ## A store modelled from the spec -/

/-- Modelled from the spec: the local storage the handlers work on, which
`client/database` keeps and whose code is not at hand: the designated
account of the device and the item records. -/
structure Store where
  account : Account
  items : List Item
deriving DecidableEq, Repr

/-- The zero value of `Item`. -/
def Item.zero : Item := ⟨0, "", "", false, false, 0⟩

/-- Set the favorite flag of the records with the id. -/
def setFavorite (flag : Bool) (id : Int) (items : List Item) : List Item :=
  items.map (fun it => if it.Id = id then { it with IsFavorite := flag } else it)

/-- Set the favorite flag of the records whose id is in the list. -/
def markAll (flag : Bool) (ids : List Int) (items : List Item) : List Item :=
  items.map (fun it => if it.Id ∈ ids then { it with IsFavorite := flag } else it)

/-- Modelled from the spec: the operations of `client/database` on the
store. The designated account is read on every request; the items of an
account are the records it owns; an item is fetched by account and id (a
zero item when there is none, as the guard of `deleteItem` on the id
anticipates); an item is removed on delete, has its favorite flag set or
cleared on favorite and unfavorite, and is rewritten on update. The methods
leave the item in memory as it is. -/
def storeDB : Database Store :=
  { InitializeDB := fun _ => none
    GetDesignatedAccount := fun s => (some s.account, none)
    GetItems := fun s acc =>
      match acc with
      | some a => .ok (s.items.filter (fun it => it.Owner = a.Id))
      | none => .error ⟨"no account"⟩
    GetSingleItem := fun s acc id =>
      match acc with
      | some a => .ok ((s.items.find? (fun it => it.Owner = a.Id ∧ it.Id = id)).getD Item.zero)
      | none => .error ⟨"no account"⟩
    Delete := fun i s => (i, { s with items := s.items.filter (fun it => it.Id ≠ i.Id) })
    Favorite := fun i s => (i, { s with items := setFavorite true i.Id s.items })
    Unfavorite := fun i s => (i, { s with items := setFavorite false i.Id s.items })
    Update := fun i s =>
      (i, { s with items := s.items.map (fun it => if it.Id = i.Id then i else it) }) }

/-- Items of the designated account of the store. -/
def ownItems (s : Store) : List Item :=
  s.items.filter (fun it => it.Owner = s.account.Id)

/-- The store after the favorite flag has been set or cleared on the
records whose ids a request has processed. -/
def markedStore (flag : Bool) (r : Request) (s : Store) : Store :=
  { s with items := markAll flag (ownedPostedIds (ownItems s) r) s.items }

/-- The store of the examples: account 1 owns items 7 and 8, account 2
owns item 9. -/
def shelf : Store :=
  { account := ⟨1, "anonymous@example.org"⟩
    items :=
      [⟨7, "0012345678905", "Tea", false, false, 1⟩,
        ⟨8, "0099999999990", "", false, true, 1⟩,
        ⟨9, "0055555555550", "Salt", false, false, 2⟩] }

/-- A POST with the given form. -/
def post (form : List (String × List String)) : Request :=
  { Method := "POST", Path := "/", PostForm := form }

/-- Coordinates of the examples. -/
def coords : ConnCoordinates := ⟨"/var/piscan/client.db"⟩

/-- The database of the examples when the account query fails and still
hands back the account. -/
def lockedDB : Database Store :=
  { storeDB with
    GetDesignatedAccount := fun s => (some s.account, some ⟨"database is locked"⟩) }

/-- The database of the examples when the query for the items of the
account fails. -/
def brokenDB : Database Store :=
  { storeDB with GetItems := fun _ _ => .error ⟨"no such table: product"⟩ }

end ui

namespace amazon

open golang

/-! ## Lemmas on the two loops -/

theorem cachedLoop_w {σ : Type} (ps : List AMAZON) (f : Frame σ) :
    (cachedLoop ps f).w = f.w := by
  induction ps generalizing f with
  | nil => rfl
  | cons p rest ih => simp [cachedLoop, ih]

theorem stringsJoin_AMZN (l : String) : stringsJoin ["AMZN", l] ":" = "AMZN:" ++ l := by
  show "AMZN" ++ ":" ++ l = "AMZN:" ++ l
  rfl

theorem getD_append_fresh (heap : List API) (cell : API) (results : List Nat)
    (h : ∀ p ∈ results, p < heap.length) :
    results.map (fun p => (heap ++ [cell]).getD p API.zero)
      = results.map (fun p => heap.getD p API.zero) := by
  apply List.map_congr_left
  intro p hp
  simp [List.getD, List.getElem?_append_left (h p hp)]

theorem cachedLoop_deref {σ : Type} (ps : List AMAZON) (f : Frame σ)
    (h : ∀ p ∈ f.results, p < f.heap.length) :
    (cachedLoop ps f).deref = f.deref ++ ps.map cachedAPI := by
  induction ps generalizing f with
  | nil => simp [cachedLoop]
  | cons p rest ih =>
    have hinv : ∀ q ∈ f.results ++ [f.heap.length],
        q < (f.heap ++ [(⟨p.Asin, p.ProductName, p.ProductType,
          stringsJoin ["AMZN", p.Locale] ":"⟩ : API)]).length := by
      intro q hq
      rcases List.mem_append.mp hq with hq | hq
      · have := h q hq
        simp only [List.length_append, List.length_singleton]
        omega
      · simp only [List.mem_singleton] at hq
        simp [hq]
    rw [cachedLoop, ih _ hinv]
    simp only [Frame.deref, List.map_append, List.map_cons, List.map_nil,
      getD_append_fresh f.heap _ f.results h, List.append_assoc, List.singleton_append]
    congr 2
    simp [List.getD, cachedAPI, stringsJoin_AMZN]

theorem splitChars_ne_nil (sep : Char) (cs : List Char) : splitChars sep cs ≠ [] := by
  cases cs with
  | nil => simp [splitChars]
  | cons c rest =>
    rw [splitChars]
    cases splitChars sep rest with
    | nil => by_cases h : c = sep <;> simp [h]
    | cons a t => by_cases h : c = sep <;> simp [h]

/-- The split of a string is never empty: the guard `len(vendor) > 0` of
`Lookup` always holds, and the default locale is never taken. -/
theorem stringsSplit_length_pos (s : String) (sep : Char) :
    (stringsSplit s sep).length > 0 := by
  unfold stringsSplit
  rw [List.length_map]
  exact List.length_pos.mpr (splitChars_ne_nil sep s.data)

theorem set_getD_self (l : List API) (v : Nat) : l.set v (l.getD v API.zero) = l := by
  induction l generalizing v with
  | nil => rfl
  | cons a rest ih =>
    cases v with
    | zero => rfl
    | succ n =>
      simp only [List.set_cons_succ, List.getD_cons_succ, ih]

theorem apiLoop_located {σ : Type} (E : Env σ) (barcode : String) (v : Nat)
    (entries : List API) (f : Frame σ) (hv : v < f.heap.length)
    (hloc : ∀ e ∈ entries, (localeOf e).isSome) :
    ∃ f1, apiLoop E barcode v entries f = .ok f1
      ∧ f1.results = f.results ++ List.replicate entries.length v
      ∧ f1.heap = f.heap.set v ((entries.getLast?).getD (f.heap.getD v API.zero))
      ∧ f1.w.inserts = f.w.inserts ++ rowsOf barcode entries
      ∧ f1.w.db = insertAll E f.w.db (rowsOf barcode entries)
      ∧ f1.w.commands = f.w.commands := by
  induction entries generalizing f with
  | nil =>
    refine ⟨f, rfl, by simp, ?_, by simp [rowsOf], by simp [rowsOf, insertAll], rfl⟩
    simp only [List.getLast?_nil, Option.getD_none]
    exact (set_getD_self f.heap v).symm
  | cons e rest ih =>
    have hget : (f.heap.set v e).getD v API.zero = e := by
      simp [List.getD_eq_getElem?_getD, hv]
    obtain ⟨locale, hl⟩ := Option.isSome_iff_exists.mp (hloc e (List.mem_cons_self _ _))
    have hl2 : (stringsSplit e.Vendor ':')[1]? = some locale := hl
    have hpos := stringsSplit_length_pos e.Vendor ':'
    have hv2 : v < (f.heap.set v e).length := by simpa using hv
    obtain ⟨f1, h1, h2, h3, h4, h5, h6⟩ := ih
      { heap := f.heap.set v e, results := f.results ++ [v],
        w := { f.w with db := (E.InsertAsin f.w.db (rowOf barcode e locale)).1,
                        inserts := f.w.inserts ++ [rowOf barcode e locale] } }
      hv2 (fun x hx => hloc x (List.mem_cons_of_mem _ hx))
    refine ⟨f1, ?_, ?_, ?_, ?_, ?_, ?_⟩
    · rw [apiLoop]
      simp only [hget, hpos, if_true, hl2]
      exact h1
    · rw [h2]
      simp [List.replicate_succ]
    · rw [h3]
      simp only [hget, List.set_set]
      cases hr : rest.getLast? with
      | none =>
        have : rest = [] := List.getLast?_eq_none_iff.mp hr
        subst this
        simp
      | some x =>
        have : (e :: rest).getLast? = some x := by
          rw [List.getLast?_cons, hr]
          rfl
        simp [this]
    · rw [h4]
      simp [rowsOf, hl]
    · rw [h5]
      simp [rowsOf, hl, insertAll]
    · rw [h6]

theorem apiLoop_unlocated {σ : Type} (E : Env σ) (barcode : String) (v : Nat)
    (entries : List API) (f : Frame σ) (hv : v < f.heap.length)
    (hloc : ∃ e ∈ entries, localeOf e = none) :
    ∃ wp, apiLoop E barcode v entries f = .error wp := by
  induction entries generalizing f with
  | nil =>
    obtain ⟨e, he, _⟩ := hloc
    cases he
  | cons e rest ih =>
    have hget : (f.heap.set v e).getD v API.zero = e := by
      simp [List.getD_eq_getElem?_getD, hv]
    have hpos := stringsSplit_length_pos e.Vendor ':'
    have hv2 : v < (f.heap.set v e).length := by simpa using hv
    cases hl : localeOf e with
    | none =>
      have hl2 : (stringsSplit e.Vendor ':')[1]? = none := hl
      refine ⟨f.w, ?_⟩
      rw [apiLoop]
      simp only [hget, hpos, if_true, hl2]
    | some locale =>
      have hl2 : (stringsSplit e.Vendor ':')[1]? = some locale := hl
      have hrest : ∃ x ∈ rest, localeOf x = none := by
        obtain ⟨x, hx, hxl⟩ := hloc
        rcases List.mem_cons.mp hx with h | h
        · subst h
          rw [hl] at hxl
          cases hxl
        · exact ⟨x, h, hxl⟩
      obtain ⟨wp, hwp⟩ := ih
        { heap := f.heap.set v e, results := f.results ++ [v],
          w := { f.w with db := (E.InsertAsin f.w.db (rowOf barcode e locale)).1,
                          inserts := f.w.inserts ++ [rowOf barcode e locale] } }
        hv2 hrest
      refine ⟨wp, ?_⟩
      rw [apiLoop]
      simp only [hget, hpos, if_true, hl2]
      exact hwp

theorem splitChars_length (sep : Char) (cs : List Char) :
    (splitChars sep cs).length = cs.count sep + 1 := by
  induction cs with
  | nil => rfl
  | cons c rest ih =>
    rw [splitChars]
    cases hs : splitChars sep rest with
    | nil => exact absurd hs (splitChars_ne_nil sep rest)
    | cons a t =>
      rw [hs] at ih
      by_cases h : c = sep
      · subst h
        simp only [if_true, List.length_cons, List.count_cons_self] at ih ⊢
        omega
      · have h2 : (c == sep) = false := by simpa using h
        simp only [h, if_false, List.length_cons, List.count_cons, h2] at ih ⊢
        simpa using ih

/-- An entry has no `vendor[1]` exactly when its vendor tag has no colon. -/
theorem localeOf_eq_none (e : API) : localeOf e = none ↔ ':' ∉ e.Vendor.data := by
  unfold localeOf stringsSplit
  rw [List.getElem?_eq_none_iff, List.length_map, splitChars_length]
  constructor
  · intro h
    have h0 : e.Vendor.data.count ':' = 0 := by omega
    exact List.count_eq_zero.mp h0
  · intro h
    have h0 : e.Vendor.data.count ':' = 0 := List.count_eq_zero.mpr h
    omega

theorem rowsOf_length (barcode : String) (entries : List API)
    (h : ∀ e ∈ entries, (localeOf e).isSome) :
    (rowsOf barcode entries).length = entries.length := by
  induction entries with
  | nil => rfl
  | cons e rest ih =>
    obtain ⟨l, hl⟩ := Option.isSome_iff_exists.mp (h e (List.mem_cons_self _ _))
    have ih2 := ih (fun x hx => h x (List.mem_cons_of_mem _ hx))
    unfold rowsOf at ih2 ⊢
    simp only [List.filterMap_cons, hl, Option.map_some', List.length_cons, ih2]

/-- What `Lookup` does on a cache miss when every entry of the answer has a
colon in its vendor tag: one row per entry is inserted, in order, and the
text returned holds as many results as entries, each a copy of the last
entry, since every pointer is the address of the range variable. -/
theorem Lookup_api_located {σ : Type} (E : Env σ) (barcode : String) (w : World σ)
    (entries : List API)
    (hmiss : ¬ ((E.LookupAsin w.db barcode).2 = none
      ∧ (E.LookupAsin w.db barcode).1.length > 0))
    (hrun : (E.run (lookupCmd E barcode)).2 = none)
    (hparse : E.Unmarshal (E.run (lookupCmd E barcode)).1 = .ok entries)
    (hloc : ∀ e ∈ entries, ':' ∈ e.Vendor.data) :
    Lookup E barcode w
        = Outcome.returned
            (jsonMarshal (List.replicate entries.length ((entries.getLast?).getD API.zero)))
            none
            { db := insertAll E w.db (rowsOf barcode entries),
              inserts := w.inserts ++ rowsOf barcode entries,
              commands := w.commands ++ [lookupCmd E barcode] }
    ∧ (rowsOf barcode entries).length = entries.length := by
  have hloc2 : ∀ e ∈ entries, (localeOf e).isSome := by
    intro e he
    cases h : localeOf e with
    | none => exact absurd (hloc e he) ((localeOf_eq_none e).mp h)
    | some l => rfl
  unfold lookupCmd at hrun hparse
  obtain ⟨f1, h1, h2, h3, h4, h5, h6⟩ := apiLoop_located E barcode 0 entries
    { heap := [API.zero], results := [],
      w := { w with commands := w.commands ++ [["python", E.scriptPath, barcode]] } }
    (by simp) hloc2
  constructor
  · simp only [Lookup, hmiss, if_false, apiLookup, hrun, if_true, hparse, h1]
    have hderef : f1.deref
        = List.replicate entries.length ((entries.getLast?).getD API.zero) := by
      simp only [Frame.deref, h2, h3, List.nil_append, List.map_replicate]
      congr 1
    have hw : f1.w = ⟨insertAll E w.db (rowsOf barcode entries),
        w.inserts ++ rowsOf barcode entries, w.commands ++ [lookupCmd E barcode]⟩ := by
      cases hf : f1.w with
      | mk d i c =>
        rw [hf] at h4 h5 h6
        simp only at h4 h5 h6
        rw [h4, h5, h6]
        rfl
    rw [hderef, hw]
  · exact rowsOf_length barcode entries hloc2

/-- What `Lookup` does on a cache miss when some entry of the answer has no
colon in its vendor tag: it panics, whatever the other entries are. -/
theorem Lookup_api_unlocated {σ : Type} (E : Env σ) (barcode : String) (w : World σ)
    (entries : List API)
    (hmiss : ¬ ((E.LookupAsin w.db barcode).2 = none
      ∧ (E.LookupAsin w.db barcode).1.length > 0))
    (hrun : (E.run (lookupCmd E barcode)).2 = none)
    (hparse : E.Unmarshal (E.run (lookupCmd E barcode)).1 = .ok entries)
    (hloc : ∃ e ∈ entries, ':' ∉ e.Vendor.data) :
    ∃ wp, Lookup E barcode w = Outcome.panicked wp := by
  have hloc2 : ∃ e ∈ entries, localeOf e = none := by
    obtain ⟨e, he, hc⟩ := hloc
    exact ⟨e, he, (localeOf_eq_none e).mpr hc⟩
  unfold lookupCmd at hrun hparse
  obtain ⟨wp, hwp⟩ := apiLoop_unlocated E barcode 0 entries
    { heap := [API.zero], results := [],
      w := { w with commands := w.commands ++ [["python", E.scriptPath, barcode]] } }
    (by simp) hloc2
  refine ⟨wp, ?_⟩
  simp only [Lookup, hmiss, if_false, apiLookup, hrun, if_true, hparse, hwp]

/-! ## Claims on `Lookup` -/

/-- C1: when the cache query returns no error and at least one row,
`Lookup` returns and leaves the world as it found it: no command is run
(the log of commands is unchanged), no row is handed to `InsertAsin` and
the store is the same. -/
theorem Lookup_cached_leaves_world {σ : Type} (E : Env σ) (barcode : String) (w : World σ)
    (herr : (E.LookupAsin w.db barcode).2 = none)
    (hrows : (E.LookupAsin w.db barcode).1 ≠ []) :
    ∃ json err w1, Lookup E barcode w = Outcome.returned json err w1
      ∧ w1.commands = w.commands ∧ w1.inserts = w.inserts ∧ w1.db = w.db := by
  have hlen : (E.LookupAsin w.db barcode).1.length > 0 := List.length_pos.mpr hrows
  refine ⟨jsonMarshal (cachedLoop (E.LookupAsin w.db barcode).1
    { heap := [], results := [], w := w }).deref, none, w, ?_, rfl, rfl, rfl⟩
  simp only [Lookup, herr, hlen, and_self, if_true, cachedLoop_w]

/-- Witness of C1: a store holding two rows for the barcode. -/
theorem Lookup_cached_leaves_world_witness :
    ∃ json err w1,
      Lookup (scriptEnv []) "0012345678905" (freshWorld teaRows)
        = Outcome.returned json err w1
      ∧ w1.commands = (freshWorld teaRows).commands
      ∧ w1.inserts = (freshWorld teaRows).inserts
      ∧ w1.db = (freshWorld teaRows).db :=
  Lookup_cached_leaves_world (scriptEnv []) "0012345678905"
    (freshWorld teaRows) rfl (by decide)

/-- C8: when the cache query returns without error the non-empty list of
rows `products`, `Lookup` returns the marshalling of one result per row, in
the order of the rows, the result of a row having its Asin as SKU, its
product name and type, and "AMZN:" followed by its locale as vendor; the
error returned is nil. -/
theorem Lookup_cached_results {σ : Type} (E : Env σ) (barcode : String) (w : World σ)
    (products : List AMAZON)
    (hfound : E.LookupAsin w.db barcode = (products, none))
    (hrows : products ≠ []) :
    Lookup E barcode w
      = Outcome.returned
          (jsonMarshal (products.map (fun (p : AMAZON) =>
            ({ SKU := p.Asin, ProductName := p.ProductName, ProductType := p.ProductType,
               Vendor := "AMZN:" ++ p.Locale } : API))))
          none w := by
  have hlen : products.length > 0 := List.length_pos.mpr hrows
  have hd := cachedLoop_deref products
    ({ heap := [], results := [], w := w } : Frame σ) (by simp)
  simp only [Lookup, hfound, hlen, and_self, if_true, cachedLoop_w, hd]
  rfl

/-- Witness of C8: two cached rows of one barcode. -/
theorem Lookup_cached_results_witness :
    Lookup (scriptEnv []) "0012345678905" (freshWorld teaRows)
      = Outcome.returned
          (jsonMarshal (teaRows.map (fun (p : AMAZON) =>
            ({ SKU := p.Asin, ProductName := p.ProductName, ProductType := p.ProductType,
               Vendor := "AMZN:" ++ p.Locale } : API))))
          none (freshWorld teaRows) :=
  Lookup_cached_results (scriptEnv []) "0012345678905"
    (freshWorld teaRows) teaRows rfl (by decide)

/-- C4, as the code has it: for a barcode the cache does not answer, when
the run of the lookup script returns an error or its output does not parse,
`Lookup` returns the text "[]" with a nil error, after running the one
command; nothing is handed to `InsertAsin` and the store is unchanged. -/
theorem Lookup_failure_returns_empty_nil {σ : Type} (E : Env σ) (barcode : String)
    (w : World σ)
    (hmiss : ¬ ((E.LookupAsin w.db barcode).2 = none
      ∧ (E.LookupAsin w.db barcode).1.length > 0))
    (hfail : (E.run (lookupCmd E barcode)).2 ≠ none
      ∨ ∃ e, E.Unmarshal (E.run (lookupCmd E barcode)).1 = Except.error e) :
    Lookup E barcode w
      = Outcome.returned "[]" none
          { db := w.db, inserts := w.inserts,
            commands := w.commands ++ [lookupCmd E barcode] } := by
  unfold lookupCmd at hfail
  by_cases ha : (E.run ["python", E.scriptPath, barcode]).2 = none
  · rcases hfail with h | ⟨e, he⟩
    · exact absurd ha h
    · simp only [Lookup, hmiss, if_false, apiLookup, ha, if_true, he]
      rfl
  · simp only [Lookup, hmiss, if_false, apiLookup, ha]
    rfl

/-- Witness of C4 as amended: the run of the script fails. -/
theorem Lookup_failure_returns_empty_nil_witness :
    Lookup failingEnv "0012345678905" (freshWorld [])
      = Outcome.returned "[]" none
          { db := (freshWorld []).db, inserts := (freshWorld []).inserts,
            commands := (freshWorld []).commands
              ++ [lookupCmd failingEnv "0012345678905"] } :=
  Lookup_failure_returns_empty_nil failingEnv
    "0012345678905" (freshWorld []) (by decide) (Or.inl (by decide))

/-- C4 as stated fails: with an empty cache and a run of the script that
ends in the error "exit status 1", `Lookup` returns no error value. -/
theorem Lookup_failure_not_propagated :
    ¬ ∃ e w1, Lookup failingEnv "0012345678905"
        (freshWorld []) = Outcome.returned "[]" (some e) w1 := by
  rintro ⟨e, w1, h⟩
  have h2 : Lookup failingEnv "0012345678905"
      (freshWorld [])
      = Outcome.returned "[]" none
          ⟨[], [], [["python", "/srv/piscan/amazon_api_lookup.py", "0012345678905"]]⟩ := rfl
  rw [h2] at h
  cases h

/-- C2 at the failing input: the cache is empty and the script answers one
entry whose vendor tag is "AMZN", without a locale. `Lookup` panics at
`vendor[1]`: no row is handed to `InsertAsin` and nothing is returned. -/
theorem Lookup_vendor_without_locale_panics :
    ((scriptEnv [⟨"B00C", "Widget", "Toy", "AMZN"⟩]).run
        ["python", "/srv/piscan/amazon_api_lookup.py", "0012345678905"]).1
      = "[\x7b\"sku\":\"B00C\",\"desc\":\"Widget\",\"type\":\"Toy\",\"vnd\":\"AMZN\"\x7d]"
    ∧ Lookup (scriptEnv [⟨"B00C", "Widget", "Toy", "AMZN"⟩]) "0012345678905" (freshWorld [])
      = Outcome.panicked
          ⟨[], [], [["python", "/srv/piscan/amazon_api_lookup.py", "0012345678905"]]⟩ :=
  ⟨rfl, rfl⟩

/-- C3 at the failing input: the cache is empty and the script answers two
different entries. Both pointers of the results are the address of the range
variable, so `Lookup` returns the second entry twice, which is not the
marshalling of the two entries; the two rows inserted are right. When the
second entry has no colon in its vendor tag, `Lookup` inserts the row of the
first and panics, returning nothing. -/
theorem Lookup_api_results_repeat_last :
    Lookup (scriptEnv teaEntries) "0012345678905" (freshWorld [])
      = Outcome.returned
          ("[\x7b\"sku\":\"B00B\",\"desc\":\"Tea (UK)\",\"vnd\":\"AMZN:uk\"\x7d,"
            ++ "\x7b\"sku\":\"B00B\",\"desc\":\"Tea (UK)\",\"vnd\":\"AMZN:uk\"\x7d]")
          none
          ⟨[⟨"0012345678905", "B00A", "Tea", "Grocery", "us"⟩,
              ⟨"0012345678905", "B00B", "Tea (UK)", "", "uk"⟩],
            [⟨"0012345678905", "B00A", "Tea", "Grocery", "us"⟩,
              ⟨"0012345678905", "B00B", "Tea (UK)", "", "uk"⟩],
            [["python", "/srv/piscan/amazon_api_lookup.py", "0012345678905"]]⟩
    ∧ jsonMarshal teaEntries
      = "[\x7b\"sku\":\"B00A\",\"desc\":\"Tea\",\"type\":\"Grocery\",\"vnd\":\"AMZN:us\"\x7d,"
          ++ "\x7b\"sku\":\"B00B\",\"desc\":\"Tea (UK)\",\"vnd\":\"AMZN:uk\"\x7d]"
    ∧ jsonMarshal [teaEntries.getD 1 API.zero, teaEntries.getD 1 API.zero]
      ≠ jsonMarshal teaEntries
    ∧ Lookup (scriptEnv mixedEntries) "0012345678905" (freshWorld [])
      = Outcome.panicked
          ⟨[⟨"0012345678905", "B00A", "Tea", "Grocery", "us"⟩],
            [⟨"0012345678905", "B00A", "Tea", "Grocery", "us"⟩],
            [["python", "/srv/piscan/amazon_api_lookup.py", "0012345678905"]]⟩ :=
  ⟨rfl, rfl, by decide, rfl⟩

end amazon

namespace ui

open golang

/-! ## Claims on the correction form and on single deletion -/

/-- C5: for a POST to `InputUnknownItem` carrying the fields item, barcode
and prodName, with the database opened and the account resolved, the item
id parsing and the item found: when the posted barcode differs from the
barcode of the item the reply is the error `BAD_REQUEST` (not a redirect),
no writing call is made and the store is as before; a call of `Update`
happens only when the two barcodes are equal, and then it is the one call,
on the item with the posted name as description and the user-contributed
flag set, followed by the redirect to `HOME_URL`. -/
theorem InputUnknownItem_barcode_guard {σ : Type} (D : Database σ) (r : Request)
    (dbCoords : ConnCoordinates) (s : σ) (acc : Option Account)
    (idVal0 : String) (idRest : List String) (barcodeVal0 : String) (barcodeRest : List String)
    (prodNameVal : List String) (itemId : Int) (item : Item)
    (hdb : D.InitializeDB dbCoords = none)
    (hacc : D.GetDesignatedAccount s = (acc, none))
    (hpost : r.Method = "POST")
    (hid : r.PostForm.lookup "item" = some (idVal0 :: idRest))
    (hbar : r.PostForm.lookup "barcode" = some (barcodeVal0 :: barcodeRest))
    (hname : r.PostForm.lookup "prodName" = some prodNameVal)
    (hparse : ParseInt idVal0 = .ok itemId)
    (hitem : D.GetSingleItem s acc itemId = .ok item) :
    (item.Barcode ≠ barcodeVal0 →
      InputUnknownItem D r dbCoords s
        = ⟨.response (.error BAD_REQUEST StatusInternalServerError), ⟨s, []⟩⟩)
    ∧ ((∃ it, DBCall.update it ∈ (InputUnknownItem D r dbCoords s).conn.calls) →
      item.Barcode = barcodeVal0)
    ∧ (item.Barcode = barcodeVal0 →
      ∀ prodNameVal0 rest, prodNameVal = prodNameVal0 :: rest →
      InputUnknownItem D r dbCoords s
        = ⟨.response (.redirect HOME_URL StatusFound),
            ⟨(D.Update { item with Desc := prodNameVal0, UserContributed := true } s).2,
              [.update { item with Desc := prodNameVal0, UserContributed := true }]⟩⟩) := by
  have hget : ¬ ("GET" = r.Method) := by rw [hpost]; decide
  have hp : "POST" = r.Method := hpost.symm
  have hmis : item.Barcode ≠ barcodeVal0 →
      InputUnknownItem D r dbCoords s
        = ⟨.response (.error BAD_REQUEST StatusInternalServerError), ⟨s, []⟩⟩ := by
    intro hne
    simp only [InputUnknownItem, hdb, hacc, hget, hp, if_false, if_true, hid, hbar, hname,
      hparse, hitem, hne]
  refine ⟨hmis, ?_, ?_⟩
  · rintro ⟨it, hit⟩
    by_contra hne
    rw [hmis hne] at hit
    simp at hit
  · intro heq prodNameVal0 rest hpn
    subst hpn
    simp only [InputUnknownItem, hdb, hacc, hget, hp, if_false, if_true, hid, hbar, hname,
      hparse, hitem, heq, callUpdate, List.nil_append]

/-- Witness of C5: a correction of item 7 posted with a wrong barcode. -/
theorem InputUnknownItem_barcode_guard_witness :
    ParseInt "7" = .ok 7
    ∧ storeDB.GetSingleItem shelf (some ⟨1, "anonymous@example.org"⟩) 7
        = .ok ⟨7, "0012345678905", "Tea", false, false, 1⟩
    ∧ InputUnknownItem storeDB
          (post [("item", ["7"]), ("barcode", ["4006381333931"]), ("prodName", ["Green tea"])])
          coords shelf
        = ⟨.response (.error BAD_REQUEST StatusInternalServerError), ⟨shelf, []⟩⟩ :=
  ⟨rfl, rfl,
    (InputUnknownItem_barcode_guard storeDB
      (post [("item", ["7"]), ("barcode", ["4006381333931"]), ("prodName", ["Green tea"])])
      coords shelf (some ⟨1, "anonymous@example.org"⟩) "7" [] "4006381333931" [] ["Green tea"] 7
      ⟨7, "0012345678905", "Tea", false, false, 1⟩ rfl rfl rfl rfl rfl rfl rfl rfl).1
      (by decide)⟩

/-- C6: when the item query for the account and the id returns an error,
or an item whose id is not the one asked for, `deleteItem` returns false,
makes no writing call and leaves the store as it is; and `RemoveSingleItem`,
reaching `deleteItem` with that id (database opened, a POST whose first
"itemId" value parses to the id), answers with an empty message and with
the text of the query error, or "No such item", as error; the store is
unchanged. The error is not empty as long as the query error has a text. -/
theorem deleteItem_not_owned {σ : Type} (D : Database σ) (s : σ) (calls : List DBCall)
    (acc : Option Account) (id : Int)
    (hown : (∃ e, D.GetSingleItem s acc id = .error e)
      ∨ (∃ item, D.GetSingleItem s acc id = .ok item ∧ item.Id ≠ id)) :
    (deleteItem D ⟨s, calls⟩ acc id).1.1 = false
    ∧ (deleteItem D ⟨s, calls⟩ acc id).2.state = s
    ∧ (deleteItem D ⟨s, calls⟩ acc id).2.calls = calls
    ∧ ∀ (r : Request) (dbCoords : ConnCoordinates) (idVal0 : String) (idRest : List String),
        D.InitializeDB dbCoords = none →
        (D.GetDesignatedAccount s).1 = acc →
        r.Method = "POST" →
        r.PostForm.lookup "itemId" = some (idVal0 :: idRest) →
        ParseInt idVal0 = .ok id →
          (RemoveSingleItem.ack D r dbCoords s).1.Message = ""
          ∧ (RemoveSingleItem.ack D r dbCoords s).1.Error
              = (match D.GetSingleItem s acc id with
                  | .error e => e.text
                  | .ok _ => "No such item")
          ∧ ((∀ e, D.GetSingleItem s acc id = .error e → e.text ≠ "") →
              (RemoveSingleItem.ack D r dbCoords s).1.Error ≠ "")
          ∧ (RemoveSingleItem.ack D r dbCoords s).2.state = s
          ∧ (RemoveSingleItem.ack D r dbCoords s).2.calls = [] := by
  have hdel : ∀ cs, deleteItem D ⟨s, cs⟩ acc id
      = ((false, match D.GetSingleItem s acc id with
                  | .error e => some e
                  | .ok _ => none), ⟨s, cs⟩) := by
    intro cs
    rcases hown with ⟨e, he⟩ | ⟨item, hitem, hne⟩
    · simp only [deleteItem, he]
    · simp only [deleteItem, hitem, hne, if_false]
  refine ⟨by rw [hdel], by rw [hdel], by rw [hdel], ?_⟩
  intro r dbCoords idVal0 idRest hdb hacc hpost hid hparse
  have hp : "POST" = r.Method := hpost.symm
  have hack : (RemoveSingleItem.ack D r dbCoords s)
      = ({ Message := "", Error := (match D.GetSingleItem s acc id with
                  | .error e => e.text
                  | .ok _ => "No such item") }, ⟨s, []⟩) := by
    simp only [RemoveSingleItem.ack, hdb, hacc, hp, if_true, hid, hparse, hdel]
    rcases hown with ⟨e, he⟩ | ⟨item, hitem, hne⟩
    · simp only [he]
      cases (D.GetDesignatedAccount s).2 <;> simp
    · simp only [hitem]
      cases (D.GetDesignatedAccount s).2 <;> simp
  rw [hack]
  refine ⟨rfl, rfl, ?_, rfl, rfl⟩
  intro htext
  rcases hown with ⟨e, he⟩ | ⟨item, hitem, hne⟩
  · simp only [he]
    exact htext e he
  · simp only [hitem]
    decide

/-- Witness of C6: account 1 asks to remove item 9, which account 2 owns. -/
theorem deleteItem_not_owned_witness :
    storeDB.GetSingleItem shelf (some ⟨1, "anonymous@example.org"⟩) 9 = .ok Item.zero
    ∧ Item.zero.Id ≠ 9
    ∧ (deleteItem storeDB ⟨shelf, []⟩ (some ⟨1, "anonymous@example.org"⟩) 9).1.1 = false
    ∧ (deleteItem storeDB ⟨shelf, []⟩ (some ⟨1, "anonymous@example.org"⟩) 9).2.state
        = shelf
    ∧ (RemoveSingleItem.ack storeDB (post [("itemId", ["9"])]) coords shelf).1.Message = ""
    ∧ (RemoveSingleItem.ack storeDB (post [("itemId", ["9"])]) coords shelf).1.Error
        = "No such item" :=
  have h := deleteItem_not_owned storeDB shelf [] (some ⟨1, "anonymous@example.org"⟩) 9
    (Or.inr ⟨Item.zero, rfl, by decide⟩)
  have h4 := h.2.2.2 (post [("itemId", ["9"])]) coords "9" [] rfl rfl rfl rfl rfl
  ⟨rfl, by decide, h.1, h.2.1, h4.1, h4.2.1⟩

/-- The reply of `RemoveSingleItem` once the database is opened, case by
case. The message is "Ok" exactly for a POST whose first "itemId" value
parses and for whose id `deleteItem` reports success, and it is empty
otherwise; with the message "Ok" the error is what the account query left
there, so it is empty when the account was resolved without error. -/
theorem RemoveSingleItem_ack_cases {σ : Type} (D : Database σ) (r : Request)
    (dbCoords : ConnCoordinates) (s : σ) (hdb : D.InitializeDB dbCoords = none) :
    ((RemoveSingleItem.ack D r dbCoords s).1.Message = "Ok"
      ↔ (r.Method = "POST" ∧ ∃ idVal0 idRest id,
          r.PostForm.lookup "itemId" = some (idVal0 :: idRest) ∧ ParseInt idVal0 = .ok id
          ∧ (deleteItem D ⟨s, []⟩ (D.GetDesignatedAccount s).1 id).1.1 = true))
    ∧ ((RemoveSingleItem.ack D r dbCoords s).1.Message = "Ok" →
        (RemoveSingleItem.ack D r dbCoords s).1.Error = accountErrorText D s)
    ∧ ((RemoveSingleItem.ack D r dbCoords s).1.Message ≠ "Ok" →
        (RemoveSingleItem.ack D r dbCoords s).1.Message = ""
        ∧ (r.Method ≠ "POST" → (RemoveSingleItem.ack D r dbCoords s).1.Error = "Bad Request")
        ∧ (r.Method = "POST" → r.PostForm.lookup "itemId" = none →
            (RemoveSingleItem.ack D r dbCoords s).1.Error = "Bad POST data")
        ∧ (r.Method = "POST" → r.PostForm.lookup "itemId" = some [] →
            (RemoveSingleItem.ack D r dbCoords s).1.Error = "Missing item id")
        ∧ (∀ idVal0 idRest idErr, r.Method = "POST" →
            r.PostForm.lookup "itemId" = some (idVal0 :: idRest) →
            ParseInt idVal0 = .error idErr →
            (RemoveSingleItem.ack D r dbCoords s).1.Error = idErr.text)) := by
  have hnok : ("" : String) ≠ "Ok" := by decide
  by_cases hp : r.Method = "POST"
  · have hp2 : "POST" = r.Method := hp.symm
    cases hl : r.PostForm.lookup "itemId" with
    | none =>
      have hack : (RemoveSingleItem.ack D r dbCoords s).1
          = { Message := "", Error := "Bad POST data" } := by
        simp only [RemoveSingleItem.ack, hdb, if_pos hp2, hl]
        cases (D.GetDesignatedAccount s).2 <;> rfl
      rw [hack]
      simp [hnok, hp]
    | some idVal =>
      cases idVal with
      | nil =>
        have hack : (RemoveSingleItem.ack D r dbCoords s).1
            = { Message := "", Error := "Missing item id" } := by
          simp only [RemoveSingleItem.ack, hdb, if_pos hp2, hl]
          cases (D.GetDesignatedAccount s).2 <;> rfl
        rw [hack]
        simp [hnok, hp]
      | cons idVal0 idRest =>
        cases hparse : ParseInt idVal0 with
        | error idErr =>
          have hack : (RemoveSingleItem.ack D r dbCoords s).1
              = { Message := "", Error := idErr.text } := by
            simp only [RemoveSingleItem.ack, hdb, if_pos hp2, hl, hparse]
            cases (D.GetDesignatedAccount s).2 <;> rfl
          rw [hack]
          simp only [hnok, hp, hparse, false_iff, ne_eq, not_false_eq_true, true_implies,
            not_true_eq_false, false_implies, true_and, and_true, reduceCtorEq,
            Option.some.injEq, List.cons.injEq]
          refine ⟨?_, ?_⟩
          · rintro ⟨a, b, c, ⟨h1, _⟩, h2, _⟩
            rw [← h1, hparse] at h2
            cases h2
          · rintro a b e ⟨h1, _⟩ h2
            rw [← h1, hparse] at h2
            cases h2
            rfl
        | ok id =>
          cases hdel : (deleteItem D ⟨s, []⟩ (D.GetDesignatedAccount s).1 id).1.1 with
          | true =>
            have hack : (RemoveSingleItem.ack D r dbCoords s).1
                = { Message := "Ok", Error := accountErrorText D s } := by
              simp only [RemoveSingleItem.ack, hdb, if_pos hp2, hl, hparse, hdel, if_true,
                accountErrorText]
              cases (D.GetDesignatedAccount s).2 <;> rfl
            rw [hack]
            simp [hp, hparse, hdel]
          | false =>
            have hmsg : (RemoveSingleItem.ack D r dbCoords s).1.Message = "" := by
              simp only [RemoveSingleItem.ack, hdb, if_pos hp2, hl, hparse, hdel]
              cases (D.GetDesignatedAccount s).2 <;>
                cases (deleteItem D ⟨s, []⟩ (D.GetDesignatedAccount s).1 id).1.2 <;> simp
            rw [hmsg]
            simp only [hnok, hp, hparse, false_iff, ne_eq, not_false_eq_true, true_implies,
              not_true_eq_false, false_implies, true_and, and_true, reduceCtorEq,
              Option.some.injEq, List.cons.injEq]
            refine ⟨?_, ?_⟩
            · rintro ⟨a, b, c, ⟨h1, _⟩, h2, h3⟩
              rw [← h1, hparse] at h2
              cases h2
              rw [hdel] at h3
              cases h3
            · rintro a b e ⟨h1, _⟩ h2
              rw [← h1, hparse] at h2
              cases h2
  · have hp2 : ¬ ("POST" = r.Method) := fun e => hp e.symm
    have hack : (RemoveSingleItem.ack D r dbCoords s).1
        = { Message := "", Error := "Bad Request" } := by
      simp only [RemoveSingleItem.ack, hdb, if_neg hp2]
      cases (D.GetDesignatedAccount s).2 <;> rfl
    rw [hack]
    simp [hnok, hp]

/-- C10 at the failing input: the database opens, the account query
returns the account together with the error "database is locked", and a
POST asks to remove item 7 of that account. The deletion is made and the
reply has the message "Ok" and a non-empty error; with the account resolved
without error the same request is answered by the message alone. -/
theorem RemoveSingleItem_ok_with_error :
    lockedDB.InitializeDB coords = none
    ∧ (RemoveSingleItem.ack lockedDB (post [("itemId", ["7"])]) coords shelf).1
        = ⟨"Ok", "database is locked"⟩
    ∧ (RemoveSingleItem lockedDB (post [("itemId", ["7"])]) coords shelf).1
        = "\x7b\"msg\":\"Ok\",\"err\":\"database is locked\"\x7d"
    ∧ (RemoveSingleItem lockedDB (post [("itemId", ["7"])]) coords shelf).2.calls
        = [.delete ⟨7, "0012345678905", "Tea", false, false, 1⟩]
    ∧ (RemoveSingleItem storeDB (post [("itemId", ["7"])]) coords shelf).1
        = "\x7b\"msg\":\"Ok\"\x7d" :=
  ⟨rfl, rfl, rfl, rfl, rfl⟩

/-! ## Claims on `processItems` -/

theorem foldl_update_isSome (items : List Item) (m : ItemMap) (id : Int) :
    ((items.foldl (fun (m : ItemMap) (item : Item) => Function.update m item.Id (some item))
        m) id).isSome
      ↔ (m id).isSome ∨ id ∈ items.map Item.Id := by
  induction items generalizing m with
  | nil => simp
  | cons it rest ih =>
    rw [List.foldl_cons, ih]
    by_cases h : id = it.Id
    · subst h
      simp
    · have h2 : it.Id ≠ id := fun e => h e.symm
      simp [Function.update_noteq h, h, h2]

theorem accountItemsOf_isSome (items : List Item) (id : Int) :
    (accountItemsOf items id).isSome ↔ id ∈ items.map Item.Id := by
  unfold accountItemsOf
  rw [foldl_update_isSome]
  simp

theorem processLoop_eq_foldl {σ : Type} (fn : Item → Conn σ → Item × Conn σ)
    (items : List Item) (vals : List String) (m : ItemMap) (c : Conn σ)
    (hdom : ∀ id, (m id).isSome ↔ id ∈ items.map Item.Id) :
    processLoop fn vals m c = (vals.filterMap (ownedId items)).foldl (applyAt fn) (m, c) := by
  induction vals generalizing m c with
  | nil => rfl
  | cons v rest ih =>
    rw [processLoop]
    cases hv : ParseInt v with
    | error e =>
      have hsel : ownedId items v = none := by simp [ownedId, hv]
      simp only [List.filterMap_cons, hsel]
      exact ih m c hdom
    | ok id =>
      cases hm : m id with
      | none =>
        have hnot : id ∉ items.map Item.Id := by
          intro hin
          have := (hdom id).mpr hin
          simp [hm] at this
        have hsel : ownedId items v = none := by simp only [ownedId, hv, hnot, if_false]
        simp only [List.filterMap_cons, hsel, hm]
        exact ih m c hdom
      | some it =>
        have hin : id ∈ items.map Item.Id := (hdom id).mp (by simp [hm])
        have hsel : ownedId items v = some id := by simp only [ownedId, hv, hin, if_true]
        simp only [List.filterMap_cons, hsel, List.foldl_cons, hm]
        have hstep : applyAt fn (m, c) id
            = (Function.update m id (some (fn it c).1), (fn it c).2) := by
          simp only [applyAt, hm]
        rw [hstep]
        apply ih
        intro id2
        by_cases h : id2 = id
        · subst h
          simp [hin]
        · rw [Function.update_noteq h]
          exact hdom id2

theorem processItems_resolved {σ : Type} (D : Database σ) (r : Request)
    (dbCoords : ConnCoordinates) (fn : Item → Conn σ → Item × Conn σ)
    (successTarget : String)
    (s : σ) (acc : Option Account) (items : List Item)
    (hdb : D.InitializeDB dbCoords = none)
    (hacc : D.GetDesignatedAccount s = (acc, none))
    (hitems : D.GetItems s acc = .ok items) :
    processItems D r dbCoords fn successTarget s
        = ⟨.response (.redirect successTarget StatusFound),
            ((ownedPostedIds items r).foldl (applyAt fn)
              (accountItemsOf items, ⟨s, []⟩)).2⟩ := by
  simp only [processItems, hdb, hacc, hitems]
  congr 1
  by_cases hp : r.Method = "POST"
  · have hp2 : "POST" = r.Method := hp.symm
    simp only [ownedPostedIds, postedItems, if_pos hp, if_pos hp2]
    cases hl : r.PostForm.lookup "item" with
    | none => simp
    | some idVals =>
      simp only [Option.getD_some]
      rw [processLoop_eq_foldl fn items idVals _ _ (accountItemsOf_isSome items)]
  · have hp2 : ¬ ("POST" = r.Method) := fun e => hp e.symm
    simp only [ownedPostedIds, if_neg hp, if_neg hp2, List.foldl_nil]

/-- C9, as amended: once the database is opened, the account resolved and
its items fetched, `processItems` answers with the redirect to the target,
and the connection it leaves is the one obtained by applying the function,
in posted order and once per occurrence, to the items stored under the
posted "item" values of a POST that parse as integers and are ids of items
of the account. Values that do not parse or are no such id contribute
nothing, and a request that is not a POST leaves the connection untouched. -/
theorem processItems_applies_to_owned_posted {σ : Type} (D : Database σ) (r : Request)
    (dbCoords : ConnCoordinates) (fn : Item → Conn σ → Item × Conn σ)
    (successTarget : String)
    (s : σ) (acc : Option Account) (items : List Item)
    (hdb : D.InitializeDB dbCoords = none)
    (hacc : D.GetDesignatedAccount s = (acc, none))
    (hitems : D.GetItems s acc = .ok items) :
    processItems D r dbCoords fn successTarget s
        = ⟨.response (.redirect successTarget StatusFound),
            ((ownedPostedIds items r).foldl (applyAt fn) (accountItemsOf items, ⟨s, []⟩)).2⟩
    ∧ (r.Method ≠ "POST" →
        processItems D r dbCoords fn successTarget s
          = ⟨.response (.redirect successTarget StatusFound), ⟨s, []⟩⟩) := by
  have hmain := processItems_resolved D r dbCoords fn successTarget s acc items hdb hacc hitems
  refine ⟨hmain, ?_⟩
  intro hp
  rw [hmain]
  simp only [ownedPostedIds, if_neg hp, List.foldl_nil]

/-- Witness of C9: account 1 posts the values 7, 9, x and 7 to be made
favorites; item 7 is its own, item 9 is not, x is no number. -/
theorem processItems_applies_to_owned_posted_witness :
    storeDB.GetItems shelf (some ⟨1, "anonymous@example.org"⟩)
        = .ok [⟨7, "0012345678905", "Tea", false, false, 1⟩,
            ⟨8, "0099999999990", "", false, true, 1⟩]
    ∧ ownedPostedIds [⟨7, "0012345678905", "Tea", false, false, 1⟩,
          ⟨8, "0099999999990", "", false, true, 1⟩] (post [("item", ["7", "9", "x", "7"])])
        = [7, 7]
    ∧ processItems storeDB (post [("item", ["7", "9", "x", "7"])]) coords
          (fun i db => callFavorite storeDB i db) "/favorites/" shelf
        = ⟨.response (.redirect "/favorites/" StatusFound),
            ((ownedPostedIds [⟨7, "0012345678905", "Tea", false, false, 1⟩,
                ⟨8, "0099999999990", "", false, true, 1⟩]
                (post [("item", ["7", "9", "x", "7"])])).foldl
              (applyAt (fun i db => callFavorite storeDB i db))
              (accountItemsOf [⟨7, "0012345678905", "Tea", false, false, 1⟩,
                ⟨8, "0099999999990", "", false, true, 1⟩], ⟨shelf, []⟩)).2⟩ :=
  ⟨rfl, by decide,
    (processItems_applies_to_owned_posted storeDB (post [("item", ["7", "9", "x", "7"])]) coords
      (fun i db => callFavorite storeDB i db) "/favorites/" shelf
      (some ⟨1, "anonymous@example.org"⟩)
      [⟨7, "0012345678905", "Tea", false, false, 1⟩,
        ⟨8, "0099999999990", "", false, true, 1⟩]
      rfl rfl rfl).1⟩

/-- C9 as stated fails: the database opens and the account is resolved,
account 1 owns item 7 and posts its id to `FavoriteItems`, but the query for
the items of the account fails. The reply is that error with status 500,
not the redirect, and the function is applied to nothing. -/
theorem processItems_items_query_fails :
    brokenDB.InitializeDB coords = none
    ∧ brokenDB.GetDesignatedAccount shelf = (some ⟨1, "anonymous@example.org"⟩, none)
    ∧ ParseInt "7" = .ok 7
    ∧ (⟨7, "0012345678905", "Tea", false, false, 1⟩ : Item) ∈ shelf.items
    ∧ (FavoriteItems brokenDB (post [("item", ["7"])]) coords shelf).reply
        = .response (.error "no such table: product" StatusInternalServerError)
    ∧ (FavoriteItems brokenDB (post [("item", ["7"])]) coords shelf).reply
        ≠ .response (.redirect "/favorites/" StatusFound)
    ∧ (FavoriteItems brokenDB (post [("item", ["7"])]) coords shelf).conn.calls = [] :=
  ⟨rfl, rfl, rfl, by decide, rfl, by decide, rfl⟩

/-! ## Favorites on the store modelled from the spec -/

theorem foldl_update_key (items : List Item) (m : ItemMap)
    (hm : ∀ id it, m id = some it → it.Id = id) (id : Int) (it : Item)
    (h : (items.foldl (fun (m : ItemMap) (item : Item) => Function.update m item.Id (some item))
        m) id = some it) :
    it.Id = id := by
  induction items generalizing m with
  | nil => exact hm id it h
  | cons a rest ih =>
    rw [List.foldl_cons] at h
    refine ih _ ?_ h
    intro id2 it2 h2
    by_cases e : id2 = a.Id
    · subst e
      rw [Function.update_same] at h2
      cases h2
      rfl
    · rw [Function.update_noteq e] at h2
      exact hm id2 it2 h2

theorem accountItemsOf_key (items : List Item) (id : Int) (it : Item)
    (h : accountItemsOf items id = some it) : it.Id = id :=
  foldl_update_key items (fun _ => none) (fun _ _ h0 => by cases h0) id it h

theorem markAll_nil (flag : Bool) (items : List Item) : markAll flag [] items = items := by
  simp [markAll]

theorem markAll_cons (flag : Bool) (id : Int) (ids : List Int) (items : List Item) :
    markAll flag ids (setFavorite flag id items) = markAll flag (id :: ids) items := by
  simp only [markAll, setFavorite, List.map_map]
  apply List.map_congr_left
  intro it _
  by_cases h1 : it.Id = id <;> by_cases h2 : it.Id ∈ ids <;> simp [h1, h2]

theorem markAll_congr (flag : Bool) (ids ids2 : List Int) (items : List Item)
    (h : ∀ it ∈ items, (it.Id ∈ ids ↔ it.Id ∈ ids2)) :
    markAll flag ids items = markAll flag ids2 items := by
  simp only [markAll]
  apply List.map_congr_left
  intro it hit
  by_cases h1 : it.Id ∈ ids
  · simp [h1, (h it hit).mp h1]
  · have h2 : it.Id ∉ ids2 := fun e => h1 ((h it hit).mpr e)
    simp [h1, h2]

theorem markAll_idem (flag : Bool) (ids : List Int) (items : List Item) :
    markAll flag ids (markAll flag ids items) = markAll flag ids items := by
  simp only [markAll, List.map_map]
  apply List.map_congr_left
  intro it _
  by_cases h : it.Id ∈ ids <;> simp [h]

theorem markAll_fixed (flag : Bool) (ids : List Int) (items : List Item)
    (h : ∀ it ∈ items, it.Id ∈ ids → it.IsFavorite = flag) :
    markAll flag ids items = items := by
  simp only [markAll]
  conv_rhs => rw [← List.map_id items]
  apply List.map_congr_left
  intro it hit
  by_cases h1 : it.Id ∈ ids
  · have := h it hit h1
    simp only [h1, if_true, id]
    cases it
    simp_all
  · simp [h1]

theorem markAll_filter_ids (flag : Bool) (ids : List Int) (items : List Item) (a : Int) :
    ((markAll flag ids items).filter (fun it => it.Owner = a)).map Item.Id
      = (items.filter (fun it => it.Owner = a)).map Item.Id := by
  induction items with
  | nil => rfl
  | cons it rest ih =>
    have ih2 := ih
    simp only [markAll] at ih2 ⊢
    by_cases h1 : it.Id ∈ ids <;> by_cases h2 : it.Owner = a <;>
      simp [List.filter_cons, h1, h2, ih2]

theorem foldl_applyAt_mark (flag : Bool) (fn : Item → Conn Store → Item × Conn Store)
    (hfn1 : ∀ i c, (fn i c).1 = i)
    (hfn2 : ∀ i c, (fn i c).2.state
      = { c.state with items := setFavorite flag i.Id c.state.items })
    (ids : List Int) (m : ItemMap) (c : Conn Store)
    (hkey : ∀ id it, m id = some it → it.Id = id)
    (hdom : ∀ id ∈ ids, (m id).isSome) :
    (ids.foldl (applyAt fn) (m, c)).2.state
      = { c.state with items := markAll flag ids c.state.items } := by
  induction ids generalizing c with
  | nil => simp [markAll_nil]
  | cons id rest ih =>
    have hsome := hdom id (List.mem_cons_self _ _)
    obtain ⟨it, hit⟩ := Option.isSome_iff_exists.mp hsome
    have hid : it.Id = id := hkey id it hit
    have hstep : applyAt fn (m, c) id = (m, (fn it c).2) := by
      simp only [applyAt, hit, hfn1]
      congr 1
      rw [← hit]
      exact Function.update_eq_self id m
    rw [List.foldl_cons, hstep, ih _ (fun j hj => hdom j (List.mem_cons_of_mem _ hj))]
    rw [hfn2, hid]
    simp only [markAll_cons]

theorem ownedId_eq_some (items : List Item) (v : String) (id : Int) :
    ownedId items v = some id ↔ ParseInt v = .ok id ∧ id ∈ items.map Item.Id := by
  unfold ownedId
  cases hv : ParseInt v with
  | error e => simp
  | ok j =>
    by_cases hj : j ∈ items.map Item.Id
    · simp only [hj, if_true, Option.some.injEq, Except.ok.injEq]
      constructor
      · intro e
        subst e
        exact ⟨rfl, hj⟩
      · intro e
        exact e.1
    · simp only [hj, if_false, Except.ok.injEq]
      constructor
      · intro e
        cases e
      · intro e
        exact absurd (e.1 ▸ e.2) hj

theorem mem_ownedPostedIds (items : List Item) (r : Request) (id : Int) :
    id ∈ ownedPostedIds items r
      ↔ r.Method = "POST" ∧ id ∈ items.map Item.Id
        ∧ ∃ v ∈ postedItems r, ParseInt v = .ok id := by
  unfold ownedPostedIds
  by_cases hp : r.Method = "POST"
  · rw [if_pos hp]
    simp only [List.mem_filterMap, ownedId_eq_some]
    constructor
    · rintro ⟨v, hv, hparse, hin⟩
      exact ⟨hp, hin, v, hv, hparse⟩
    · rintro ⟨_, hin, v, hv, hparse⟩
      exact ⟨v, hv, hparse, hin⟩
  · rw [if_neg hp]
    constructor
    · intro h
      cases h
    · intro h
      exact absurd h.1 hp

theorem ownedPostedIds_congr (items items2 : List Item) (r : Request)
    (h : items.map Item.Id = items2.map Item.Id) :
    ownedPostedIds items r = ownedPostedIds items2 r := by
  have hsel : ownedId items = ownedId items2 := by
    funext v
    simp only [ownedId, h]
  simp only [ownedPostedIds, hsel]

theorem storeDB_processItems_state (flag : Bool)
    (fn : Item → Conn Store → Item × Conn Store)
    (hfn1 : ∀ i c, (fn i c).1 = i)
    (hfn2 : ∀ i c, (fn i c).2.state
      = { c.state with items := setFavorite flag i.Id c.state.items })
    (r : Request) (dbCoords : ConnCoordinates) (target : String) (s : Store) :
    (processItems storeDB r dbCoords fn target s).conn.state = markedStore flag r s := by
  rw [processItems_resolved storeDB r dbCoords fn target s (some s.account) (ownItems s)
    rfl rfl rfl]
  simp only []
  rw [foldl_applyAt_mark flag fn hfn1 hfn2 _ _ _ (accountItemsOf_key _)]
  · rfl
  · intro id hid
    exact (accountItemsOf_isSome _ id).mpr ((mem_ownedPostedIds _ r id).mp hid).2.1

theorem markedStore_twice (flag : Bool) (r : Request) (s : Store) :
    markedStore flag r (markedStore flag r s) = markedStore flag r s := by
  have hids : (ownItems (markedStore flag r s)).map Item.Id = (ownItems s).map Item.Id :=
    markAll_filter_ids flag _ s.items s.account.Id
  simp only [markedStore]
  rw [show ownItems { s with items := markAll flag (ownedPostedIds (ownItems s) r) s.items }
      = ownItems (markedStore flag r s) from rfl,
    ownedPostedIds_congr _ (ownItems s) r hids, markAll_idem]

theorem markedStore_same_ids (flag : Bool) (r r2 : Request) (s : Store)
    (hm : r.Method = r2.Method)
    (hids : ∀ id : Int, (∃ v ∈ postedItems r, ParseInt v = .ok id)
      ↔ (∃ v ∈ postedItems r2, ParseInt v = .ok id)) :
    markedStore flag r s = markedStore flag r2 s := by
  simp only [markedStore]
  congr 1
  apply markAll_congr
  intro it _
  rw [mem_ownedPostedIds, mem_ownedPostedIds, hm]
  simp only [hids]

theorem markedStore_fixed (flag : Bool) (r : Request) (s : Store)
    (h : ∀ it ∈ s.items, ∀ v ∈ postedItems r,
      ParseInt v = .ok it.Id → it.IsFavorite = flag) :
    markedStore flag r s = s := by
  simp only [markedStore]
  rw [markAll_fixed]
  intro it hit hin
  obtain ⟨_, _, v, hv, hparse⟩ := (mem_ownedPostedIds _ r it.Id).mp hin
  exact h it hit v hv hparse

theorem FavoriteItems_state (r : Request) (dbCoords : ConnCoordinates) (s : Store) :
    (FavoriteItems storeDB r dbCoords s).conn.state = markedStore true r s :=
  storeDB_processItems_state true _ (fun _ _ => rfl) (fun _ _ => rfl) r dbCoords _ s

theorem UnfavoriteItems_state (r : Request) (dbCoords : ConnCoordinates) (s : Store) :
    (UnfavoriteItems storeDB r dbCoords s).conn.state = markedStore false r s :=
  storeDB_processItems_state false _ (fun _ _ => rfl) (fun _ _ => rfl) r dbCoords _ s

/-- C7, on the store modelled from the spec: a `FavoriteItems` request
whose posted ids are all ids of records that are favorites already leaves
the store unchanged; a `FavoriteItems` or `UnfavoriteItems` request
processed a second time on the store the first left gives that same store;
and two requests of one method that post the same ids, however often each
is repeated, leave the same store. -/
theorem favorite_status_idempotent :
    (∀ (s : Store) (r : Request) (dbCoords : ConnCoordinates),
      (∀ it ∈ s.items, ∀ v ∈ postedItems r,
          ParseInt v = .ok it.Id → it.IsFavorite = true) →
        (FavoriteItems storeDB r dbCoords s).conn.state = s)
    ∧ (∀ (s : Store) (r : Request) (dbCoords : ConnCoordinates),
        (FavoriteItems storeDB r dbCoords
            (FavoriteItems storeDB r dbCoords s).conn.state).conn.state
          = (FavoriteItems storeDB r dbCoords s).conn.state)
    ∧ (∀ (s : Store) (r : Request) (dbCoords : ConnCoordinates),
        (UnfavoriteItems storeDB r dbCoords
            (UnfavoriteItems storeDB r dbCoords s).conn.state).conn.state
          = (UnfavoriteItems storeDB r dbCoords s).conn.state)
    ∧ (∀ (s : Store) (r r2 : Request) (dbCoords : ConnCoordinates),
        r.Method = r2.Method →
        (∀ id : Int, (∃ v ∈ postedItems r, ParseInt v = .ok id)
          ↔ (∃ v ∈ postedItems r2, ParseInt v = .ok id)) →
          (FavoriteItems storeDB r dbCoords s).conn.state
            = (FavoriteItems storeDB r2 dbCoords s).conn.state)
    ∧ (∀ (s : Store) (r r2 : Request) (dbCoords : ConnCoordinates),
        r.Method = r2.Method →
        (∀ id : Int, (∃ v ∈ postedItems r, ParseInt v = .ok id)
          ↔ (∃ v ∈ postedItems r2, ParseInt v = .ok id)) →
          (UnfavoriteItems storeDB r dbCoords s).conn.state
            = (UnfavoriteItems storeDB r2 dbCoords s).conn.state) := by
  refine ⟨?_, ?_, ?_, ?_, ?_⟩
  · intro s r dbCoords h
    rw [FavoriteItems_state]
    exact markedStore_fixed true r s h
  · intro s r dbCoords
    simp only [FavoriteItems_state, markedStore_twice]
  · intro s r dbCoords
    simp only [UnfavoriteItems_state, markedStore_twice]
  · intro s r r2 dbCoords hm hids
    simp only [FavoriteItems_state]
    exact markedStore_same_ids true r r2 s hm hids
  · intro s r r2 dbCoords hm hids
    simp only [UnfavoriteItems_state]
    exact markedStore_same_ids false r r2 s hm hids

/-- Witness of C7: item 8 of the example store is a favorite already, and
posting it again leaves the store as it is; posting item 7 twice in one
request leaves the store that posting it once leaves. -/
theorem favorite_status_idempotent_witness :
    (FavoriteItems storeDB (post [("item", ["8"])]) coords shelf).conn.state = shelf
    ∧ (FavoriteItems storeDB (post [("item", ["7", "7"])]) coords shelf).conn.state
        = (FavoriteItems storeDB (post [("item", ["7"])]) coords shelf).conn.state :=
  ⟨favorite_status_idempotent.1 shelf (post [("item", ["8"])]) coords (by
      intro it hit v hv hparse
      simp only [postedItems, post, List.lookup, beq_self_eq_true, Option.getD_some,
        List.mem_singleton] at hv
      subst hv
      have h8 : ParseInt "8" = .ok 8 := rfl
      rw [h8] at hparse
      simp only [shelf, List.mem_cons, List.mem_singleton, List.not_mem_nil, or_false] at hit
      rcases hit with h | h | h <;> subst h
      · cases hparse
      · rfl
      · cases hparse),
    favorite_status_idempotent.2.2.2.1 shelf (post [("item", ["7", "7"])])
      (post [("item", ["7"])]) coords rfl (by
        intro id
        simp [postedItems, post, List.lookup])⟩

end ui
